import Mathlib

/-!
Shallow embedding of the p2p_lan_chat peer runtime: the threshold decision
engine (src/crypto/threshold.rs), the Ed25519 identity and signing layer
(src/crypto/mod.rs), the outbound broadcaster (src/chat/net/broadcast.rs),
the local proposal path (src/chat/mod.rs), and the mDNS observe loop
(src/chat/net/discovery.rs), together with theorems settling the spec's
claims about them.

Shared hash maps keyed by strings are modelled as association lists where
an insert shadows earlier bindings and lookup returns the first binding;
this matches HashMap::insert / HashMap::get observationally.  Wall-clock
reads, fresh UUIDs and the Ed25519 primitives are inputs of the embedded
functions; TCP and mDNS I/O is abstracted away, keeping only the values
the code computes and the decisions it takes.
-/

namespace P2PChat

/-- Lookup in an association-list map: first binding wins. -/
def mlookup {V : Type} : List (String × V) → String → Option V
  | [], _ => none
  | (k', v) :: rest, k => if k' = k then some v else mlookup rest k

/-- Insert into an association-list map by shadowing: models HashMap::insert. -/
def minsert {V : Type} (m : List (String × V)) (k : String) (v : V) : List (String × V) :=
  (k, v) :: m

/-- Fuelled digit expansion; the fuel dominates the digit count so the
recursion is structural and kernel-reducible. -/
def natDigitsAux : Nat → Nat → List Char
  | 0, _ => []
  | fuel + 1, n =>
    if n < 10 then [Nat.digitChar n]
    else natDigitsAux fuel (n / 10) ++ [Nat.digitChar (n % 10)]

/-- Decimal digit list of a natural number, most significant first,
modelling Rust's Display for u64. -/
def natDigits (n : Nat) : List Char := natDigitsAux (n + 1) n

/-- Decimal string of a natural, as Rust's `format!` renders a u64. -/
def natStr (n : Nat) : String := ⟨natDigits n⟩

/-- Rust's Display for bool: the literals true and false. -/
def boolStr (b : Bool) : String := if b then "true" else "false"

/-- Reads a digit list back into a number; inverse of natDigits. -/
def readDigits (cs : List Char) : Nat :=
  cs.foldl (fun a c => a * 10 + (c.toNat - 48)) 0

/-! Identity and signing layer, from src/crypto/mod.rs.  The Ed25519
primitives of ed25519-dalek (key parsing, signing, verification) are not
re-implemented; the embedding is parameterized by them.  Byte vectors are
lists of naturals; signing consumes the UTF-8 string directly, which is
faithful because str::as_bytes is injective. -/

/-- Abstract interface of the ed25519-dalek primitives used by the code:
signing keys, verifying keys, VerifyingKey::to_bytes / from_bytes,
SigningKey::sign and VerifyingKey::verify. -/

structure Ed25519 where
  Sk : Type
  Vk : Type
  vkOf : Sk → Vk
  vkBytes : Vk → List Nat
  parseVk : List Nat → Option Vk
  sign : Sk → String → List Nat
  verify : Vk → String → List Nat → Bool

/-- Errors of src/crypto/mod.rs (CryptoError). -/
inductive CryptoError where
  | InvalidPublicKey
  | InvalidSignature
  | VerificationFailed
  | MessageTooOld
  | Unknown (msg : String)
deriving DecidableEq, Repr

/-- CryptoIdentity of src/crypto/mod.rs. -/
structure CryptoIdentity where
  public_key : List Nat
  peer_id : String
  name : String
deriving DecidableEq, Repr

/-- SignedMessage of src/crypto/mod.rs. -/
structure SignedMessage where
  message : String
  signature : List Nat
  public_key : List Nat
  signer_id : String
  signer_name : String
  timestamp : Nat
deriving DecidableEq, Repr

/-- CryptoManager of src/crypto/mod.rs: a signing key, its verifying key,
the cache of known peer keys, and the peer's own identity. -/
structure CryptoManager (E : Ed25519) where
  signing_key : E.Sk
  verifying_key : E.Vk
  known_keys : List (String × E.Vk)
  identity : CryptoIdentity

/-- CryptoManager::new with the freshly generated keypair passed in. -/
def CryptoManager.new (E : Ed25519) (sk : E.Sk) (peer_id name : String) :
    CryptoManager E :=
  { signing_key := sk
    verifying_key := E.vkOf sk
    known_keys := []
    identity :=
      { public_key := E.vkBytes (E.vkOf sk), peer_id := peer_id, name := name } }

/-- CryptoManager::sign_message: signs the byte string message:timestamp and
packages the signature with the signer's public key and identity. -/
def sign_message {E : Ed25519} (cm : CryptoManager E) (message : String)
    (timestamp : Nat) : SignedMessage :=
  let message_to_sign := message ++ ":" ++ natStr timestamp
  { message := message
    signature := E.sign cm.signing_key message_to_sign
    public_key := E.vkBytes cm.verifying_key
    signer_id := cm.identity.peer_id
    signer_name := cm.identity.name
    timestamp := timestamp }

/-- CryptoManager::verify_message: resolves the verifying key from the
known-keys cache, else parses (and caches) the attached 32-byte public key;
then checks the 64-byte signature over message:timestamp.  Returns the
possibly extended manager together with the result. -/
def verify_message {E : Ed25519} (cm : CryptoManager E) (sm : SignedMessage) :
    CryptoManager E × Except CryptoError Bool :=
  let resolved : Except CryptoError (CryptoManager E × E.Vk) :=
    match mlookup cm.known_keys sm.signer_id with
    | some key => Except.ok (cm, key)
    | none =>
      if sm.public_key.length = 32 then
        match E.parseVk sm.public_key with
        | some key =>
          Except.ok ({ cm with known_keys := minsert cm.known_keys sm.signer_id key }, key)
        | none => Except.error CryptoError.InvalidPublicKey
      else Except.error CryptoError.InvalidPublicKey
  match resolved with
  | Except.error e => (cm, Except.error e)
  | Except.ok (cm', key) =>
    let message_to_verify := sm.message ++ ":" ++ natStr sm.timestamp
    if sm.signature.length = 64 then
      (cm', Except.ok (E.verify key message_to_verify sm.signature))
    else (cm', Except.error CryptoError.InvalidSignature)

/-- CryptoManager::add_known_peer: trust-on-first-use insert of a peer key. -/
def add_known_peer {E : Ed25519} (cm : CryptoManager E) (peer_id : String)
    (public_key : List Nat) : CryptoManager E × Except CryptoError Unit :=
  if public_key.length = 32 then
    match E.parseVk public_key with
    | some key =>
      ({ cm with known_keys := minsert cm.known_keys peer_id key }, Except.ok ())
    | none => (cm, Except.error CryptoError.InvalidPublicKey)
  else (cm, Except.error CryptoError.InvalidPublicKey)

/-! Threshold decision engine, from src/crypto/threshold.rs. -/

/-- UpgradeProposal of src/crypto/threshold.rs. -/

structure UpgradeProposal where
  proposal_id : String
  proposer_id : String
  proposer_name : String
  timestamp : Nat
  description : String
  required_approvals : Nat
  total_peers : Nat
deriving DecidableEq, Repr

/-- UpgradeVote of src/crypto/threshold.rs. -/
structure UpgradeVote where
  proposal_id : String
  voter_id : String
  voter_name : String
  approved : Bool
  timestamp : Nat
  signature : Option (List Nat)
deriving DecidableEq, Repr

/-- PartialSignature of src/crypto/threshold.rs (reserved by the code). -/
structure PartialSignature where
  proposal_id : String
  signer_id : String
  signer_name : String
  signature : List Nat
  public_key : List Nat
  timestamp : Nat
deriving DecidableEq, Repr

/-- ProposalState of src/crypto/threshold.rs. -/
inductive ProposalState where
  | Open
  | Approved
  | Rejected
deriving DecidableEq, Repr

/-- ThresholdManager of src/crypto/threshold.rs: the four tables keyed by
proposal id plus the latching secure-only flag.  The psigs field embeds the
source's table of partial signatures. -/
structure ThresholdManager where
  proposals : List (String × UpgradeProposal)
  votes : List (String × List UpgradeVote)
  psigs : List (String × List PartialSignature)
  proposal_states : List (String × ProposalState)
  secure_only_enabled : Bool
deriving DecidableEq, Repr

/-- ThresholdManager::new. -/
def ThresholdManager.new : ThresholdManager :=
  { proposals := [], votes := [], psigs := [], proposal_states := []
    secure_only_enabled := false }

/-- ThresholdManager::get_proposal. -/
def get_proposal (tm : ThresholdManager) (proposal_id : String) :
    Option UpgradeProposal :=
  mlookup tm.proposals proposal_id

/-- ThresholdManager::get_proposal_votes (empty when the id is absent). -/
def get_proposal_votes (tm : ThresholdManager) (proposal_id : String) :
    List UpgradeVote :=
  (mlookup tm.votes proposal_id).getD []

/-- ThresholdManager::get_proposal_state. -/
def get_proposal_state (tm : ThresholdManager) (proposal_id : String) :
    Option ProposalState :=
  mlookup tm.proposal_states proposal_id

/-- ThresholdManager::is_secure_only_enabled. -/
def is_secure_only_enabled (tm : ThresholdManager) : Bool :=
  tm.secure_only_enabled

/-- Number of approved=true votes in a vote list, as counted by
check_threshold. -/
def approvedCount (vs : List UpgradeVote) : Nat :=
  (vs.filter (fun v => v.approved)).length

/-- Vec::push through the votes table entry: entry(id).or_insert(Vec::new).push(v). -/
def appendVote (m : List (String × List UpgradeVote)) (proposal_id : String)
    (v : UpgradeVote) : List (String × List UpgradeVote) :=
  minsert m proposal_id (((mlookup m proposal_id).getD []) ++ [v])

/-- ThresholdManager::insert_received_proposal: idempotent insert of a
received proposal with fresh companion entries. -/
def insert_received_proposal (tm : ThresholdManager) (p : UpgradeProposal) :
    ThresholdManager :=
  if (get_proposal tm p.proposal_id).isSome then tm
  else
    { tm with
      proposals := minsert tm.proposals p.proposal_id p
      votes := minsert tm.votes p.proposal_id []
      psigs := minsert tm.psigs p.proposal_id []
      proposal_states := minsert tm.proposal_states p.proposal_id ProposalState.Open }

/-- ThresholdManager::create_proposal, with the fresh UUID and the wall-clock
timestamp supplied by the environment. -/
def create_proposal (tm : ThresholdManager) (proposal_id : String)
    (proposer_id proposer_name description : String)
    (required_approvals total_peers timestamp : Nat) :
    ThresholdManager × String :=
  let proposal : UpgradeProposal :=
    { proposal_id := proposal_id
      proposer_id := proposer_id
      proposer_name := proposer_name
      timestamp := timestamp
      description := description
      required_approvals := required_approvals
      total_peers := total_peers }
  ({ tm with
      proposals := minsert tm.proposals proposal_id proposal
      votes := minsert tm.votes proposal_id []
      psigs := minsert tm.psigs proposal_id []
      proposal_states := minsert tm.proposal_states proposal_id ProposalState.Open },
    proposal_id)

/-- ThresholdManager::check_threshold: recounts approvals and, when the
threshold is met, marks the proposal Approved and latches the flag. -/
def check_threshold (tm : ThresholdManager) (proposal_id : String) :
    ThresholdManager × Except CryptoError Unit :=
  match mlookup tm.proposals proposal_id with
  | none => (tm, Except.error (CryptoError.Unknown "Proposal not found"))
  | some proposal =>
    match mlookup tm.votes proposal_id with
    | none => (tm, Except.error (CryptoError.Unknown "Votes not found"))
    | some votes =>
      if proposal.required_approvals ≤ approvedCount votes then
        ({ tm with
            proposal_states := minsert tm.proposal_states proposal_id ProposalState.Approved
            secure_only_enabled := true },
          Except.ok ())
      else (tm, Except.ok ())

/-- ThresholdManager::cast_vote: refuses when the state entry is missing or
not Open or the voter already voted; otherwise records the (signed when
approving) vote and runs the threshold check. -/
def cast_vote {E : Ed25519} (tm : ThresholdManager) (proposal_id : String)
    (voter_id voter_name : String) (approved : Bool) (timestamp : Nat)
    (cm : CryptoManager E) : ThresholdManager × Except CryptoError Unit :=
  match mlookup tm.proposal_states proposal_id with
  | none => (tm, Except.error (CryptoError.Unknown "Proposal state not found"))
  | some ProposalState.Open =>
    if ((mlookup tm.votes proposal_id).getD []).any (fun v => v.voter_id == voter_id) then
      (tm, Except.error (CryptoError.Unknown "Peer has already voted on this proposal"))
    else
      let signature : Option (List Nat) :=
        if approved then
          let vote_data :=
            proposal_id ++ ":" ++ voter_id ++ ":" ++ boolStr approved ++ ":" ++
              natStr timestamp
          some (sign_message cm vote_data timestamp).signature
        else none
      let vote : UpgradeVote :=
        { proposal_id := proposal_id
          voter_id := voter_id
          voter_name := voter_name
          approved := approved
          timestamp := timestamp
          signature := signature }
      check_threshold { tm with votes := appendVote tm.votes proposal_id vote } proposal_id
  | some _ => (tm, Except.error (CryptoError.Unknown "Proposal is not open for voting"))

/-- ThresholdManager::handle_received_vote: appends the vote unless the
voter already voted on that proposal, then re-checks the threshold and
discards its error. -/
def handle_received_vote (tm : ThresholdManager) (vote : UpgradeVote) :
    ThresholdManager :=
  if (get_proposal_votes tm vote.proposal_id).any (fun v => v.voter_id == vote.voter_id) then
    tm
  else
    (check_threshold { tm with votes := appendVote tm.votes vote.proposal_id vote }
      vote.proposal_id).1

/-- ThresholdManager::handle_upgrade_activation: unconditionally marks the
proposal Approved and latches the flag. -/
def handle_upgrade_activation (tm : ThresholdManager) (proposal_id : String) :
    ThresholdManager :=
  { tm with
    proposal_states := minsert tm.proposal_states proposal_id ProposalState.Approved
    secure_only_enabled := true }

/-! Operation traces of the threshold engine.  An Op is one invocation of a
mutating ThresholdManager method, with the environment-chosen inputs (fresh
UUID, wall-clock timestamp, signing manager) recorded in the constructor. -/

/-- One mutating operation of the threshold decision engine. -/

inductive Op (E : Ed25519) where
  | create (proposal_id proposer_id proposer_name description : String)
      (required_approvals total_peers timestamp : Nat)
  | insertReceived (p : UpgradeProposal)
  | cast (proposal_id voter_id voter_name : String) (approved : Bool)
      (timestamp : Nat) (cm : CryptoManager E)
  | recvVote (v : UpgradeVote)
  | activate (proposal_id : String)

/-- State transition of one engine operation (the value returned to the
caller is discarded; errors leave exactly the state the code leaves). -/
def step {E : Ed25519} (tm : ThresholdManager) : Op E → ThresholdManager
  | Op.create pid prid prname desc m n ts =>
    (create_proposal tm pid prid prname desc m n ts).1
  | Op.insertReceived p => insert_received_proposal tm p
  | Op.cast pid vid vname ap ts cm => (cast_vote tm pid vid vname ap ts cm).1
  | Op.recvVote v => handle_received_vote tm v
  | Op.activate pid => handle_upgrade_activation tm pid

/-- Runs a sequence of engine operations from a given state. -/
def runOps {E : Ed25519} (tm : ThresholdManager) (ops : List (Op E)) :
    ThresholdManager :=
  ops.foldl step tm

/-- Runs a sequence of engine operations from ThresholdManager::new. -/
def run (E : Ed25519) (ops : List (Op E)) : ThresholdManager :=
  runOps ThresholdManager.new ops

/-- Whether an operation is a handle_upgrade_activation call. -/
def Op.isActivate {E : Ed25519} : Op E → Bool
  | Op.activate _ => true
  | _ => false

/-- The threshold-correctness equivalence asserted by the spec, read off a
single engine state. -/
def thresholdCorrect (tm : ThresholdManager) : Prop :=
  ∀ pid p, get_proposal tm pid = some p →
    (get_proposal_state tm pid = some ProposalState.Approved ↔
      p.required_approvals ≤ approvedCount (get_proposal_votes tm pid))

/-- Invariant: a nonempty vote tally at or above the threshold forces the
Approved state. -/
def InvUp (tm : ThresholdManager) : Prop :=
  ∀ pid p, mlookup tm.proposals pid = some p →
    1 ≤ (get_proposal_votes tm pid).length →
    p.required_approvals ≤ approvedCount (get_proposal_votes tm pid) →
    get_proposal_state tm pid = some ProposalState.Approved

/-- Invariant: an Approved proposal has a tally at or above its threshold. -/
def InvDown (tm : ThresholdManager) : Prop :=
  ∀ pid p, mlookup tm.proposals pid = some p →
    get_proposal_state tm pid = some ProposalState.Approved →
    p.required_approvals ≤ approvedCount (get_proposal_votes tm pid)

/-- Invariant: no voter id occurs twice in any proposal's vote list. -/
def InvNodup (tm : ThresholdManager) : Prop :=
  ∀ pid, ((get_proposal_votes tm pid).map (fun v => v.voter_id)).Nodup

/-! A concrete instantiation of the Ed25519 interface, used to evaluate the
theorems on explicit inputs.  Keys are naturals, a signature is the key
followed by an injective encoding of the signed bytes, padded to the
64-entry shape of a real signature; verification recomputes the signature.
This toy scheme is perfectly correct and perfectly unforgeable, which is
exactly the idealization the spec's tamper-detection sentences assume of
Ed25519. -/

/-- Injective encoding of a character list into one natural number. -/

def encL : List Char → Nat
  | [] => 0
  | c :: cs => (c.toNat + 1) + 2097152 * encL cs

/-- Toy signature: the signing key, the encoded message, and 62 padding
entries, 64 entries in all. -/
def toySign (k : Nat) (s : String) : List Nat :=
  k :: encL s.data :: List.replicate 62 0

/-- Toy public-key bytes: the key followed by 31 padding entries. -/
def toyVkBytes (k : Nat) : List Nat :=
  k :: List.replicate 31 0

/-- Toy key parsing: accepts exactly the images of toyVkBytes. -/
def toyParseVk (b : List Nat) : Option Nat :=
  match b with
  | [] => none
  | k :: rest => if rest = List.replicate 31 0 then some k else none

/-- Toy verification: recompute the signature and compare. -/
def toyVerify (k : Nat) (s : String) (sig : List Nat) : Bool :=
  sig = toySign k s

/-- The toy instantiation of the Ed25519 interface. -/
def toyE : Ed25519 :=
  { Sk := Nat
    Vk := Nat
    vkOf := fun k => k
    vkBytes := toyVkBytes
    parseVk := toyParseVk
    sign := toySign
    verify := toyVerify }

/-- A concrete crypto manager over the toy scheme. -/
def toyCm : CryptoManager toyE :=
  CryptoManager.new toyE (show Nat from 7) "self-peer" "Self"

/-- Whether every character is whitespace: models Rust's
str::trim().is_empty() without materializing the trimmed string. -/
def strBlank (s : String) : Bool := s.data.all Char.isWhitespace

/-- Whether the pattern list heads the subject list. -/
def listStarts : List Char → List Char → Bool
  | [], _ => true
  | _ :: _, [] => false
  | p :: ps, c :: cs => p == c && listStarts ps cs

/-- Whether pat heads s: models str::starts_with for the TXT tag matches. -/
def strStarts (s pat : String) : Bool := listStarts pat.data s.data

/-- An IP address abstracted to the two predicates the code consults. -/
structure Ip where
  addr : Nat
  loopback : Bool
  multicast : Bool
deriving DecidableEq, Repr

/-- PeerInfo of src/src/peer.rs. -/
structure PeerInfo where
  id : String
  name : String
  ip : Ip
  port : Nat
deriving DecidableEq, Repr

/-- PeerInfo::is_valid of src/src/peer.rs. -/
def PeerInfo.is_valid (p : PeerInfo) : Bool :=
  !strBlank p.id && !strBlank p.name && decide (p.name.utf8ByteSize ≤ 128) &&
    decide (0 < p.port) && !p.ip.loopback && !p.ip.multicast

/-- ChatError of src/src/error.rs. -/
inductive ChatError where
  | Network (msg : String)
  | Serialization (msg : String)
  | Unknown (msg : String)
deriving DecidableEq, Repr

/-- Modelled from the spec: the Chat wire message. The src/src/peer.rs
snapshot lacks the optional signature and public_key fields that
broadcast.rs sets on this struct; the spec's wire shape
Chat with from_id, from_name, content, timestamp, signature?, public_key?
supplies them. -/
structure Message where
  from_id : String
  from_name : String
  content : String
  timestamp : Nat
  signature : Option (List Nat)
  public_key : Option (List Nat)
deriving DecidableEq, Repr

/-- Modelled from the spec: the NetworkMessage wire envelope with the
variants the spec lists; the src/src/peer.rs snapshot declares only four of
them although broadcast.rs and the handlers construct and match all nine. -/
inductive NetworkMessage where
  | Discovery (info : PeerInfo)
  | Chat (message : Message)
  | SignedChat (signed : SignedMessage)
  | Heartbeat (peer_id : String)
  | Exit (peer_id : String)
  | IdentityAnnouncement (peer_id : String) (name : String) (public_key : List Nat)
  | UpgradeRequest (proposal : UpgradeProposal)
  | UpgradeVote (vote : P2PChat.UpgradeVote)
  | PartialSignature (psig : P2PChat.PartialSignature)
deriving DecidableEq, Repr

/-- Peer of src/src/chat/mod.rs, restricted to the fields the embedded
operations read; the registry is the peer_id keyed map of PeerInfo. -/
structure Peer (E : Ed25519) where
  peer_id : String
  name : String
  port : Nat
  peers : List (String × PeerInfo)
  crypto_manager : CryptoManager E
  threshold_manager : ThresholdManager

/-- broadcast_unsigned_message of src/src/chat/net/broadcast.rs: refuses
when secure-only is latched, otherwise composes the unsigned Chat wire
message with signature and public_key both None.  The TCP fan-out is
abstracted away - per-peer send failures cannot change the Ok result, so
the embedding returns the composed wire message. -/
def broadcast_unsigned_message {E : Ed25519} (peer : Peer E) (content : String)
    (now : Nat) : Except ChatError NetworkMessage :=
  if is_secure_only_enabled peer.threshold_manager then
    Except.error (ChatError.Unknown
      "Cannot send unsigned messages when secure-only messaging is enabled")
  else
    Except.ok (NetworkMessage.Chat
      { from_id := peer.peer_id, from_name := peer.name, content := content
        timestamp := now, signature := none, public_key := none })

/-- propose_secure_upgrade of src/src/chat/mod.rs: reads the registry size,
computes the simple-majority threshold from it, and creates the proposal
with total_peers = registry size + 1; the proposal broadcast is abstracted
away.  The fresh UUID and wall-clock second are inputs. -/
def propose_secure_upgrade {E : Ed25519} (peer : Peer E) (description : String)
    (proposal_id : String) (now : Nat) : ThresholdManager × String :=
  let peers_count := peer.peers.length
  let required_approvals := peers_count / 2 + 1
  create_proposal peer.threshold_manager proposal_id peer.peer_id peer.name
    description required_approvals (peers_count + 1) now

/-! The mDNS observe loop of src/src/chat/net/discovery.rs, reduced to the
pure per-response decision: which PeerInfo, if any, gets inserted into the
registry for one mDNS response. -/

/-- The DNS record kinds the observe loop inspects. -/

inductive RecordKind where
  | A (ip : Ip)
  | AAAA (ip : Ip)
  | PTR (name : String)
  | TXT (txts : List String)
  | SRV (port : Nat)
  | Unsupported
deriving DecidableEq, Repr

/-- to_ip_addr of src/src/chat/net/discovery.rs. -/
def to_ip_addr : RecordKind → Option Ip
  | RecordKind.A ip => some ip
  | RecordKind.AAAA ip => some ip
  | _ => none

/-- The TXT-record closure of the observe loop: scan the TXT entries,
remembering the last peer_id= value and whether an app=p2pchat tag was
seen; yield the peer id only when the tag was seen. -/
def txtPeerId (txts : List String) : Option String :=
  let found_peer_id := txts.foldl
    (fun acc txt => if strStarts txt "peer_id=" then some (txt.drop 8) else acc) none
  let found_app_tag := txts.any (fun txt => txt == "app=p2pchat")
  if found_app_tag then found_peer_id else none

/-- The find_map closure over records for the peer id. -/
def recTxtPeerId : RecordKind → Option String
  | RecordKind.TXT txts => txtPeerId txts
  | _ => none

/-- First A or AAAA address of the response. -/
def respAddr (records : List RecordKind) : Option Ip :=
  (records.filterMap to_ip_addr).head?

/-- PTR-derived instance name, with the source's unknown fallback. -/
def respPeerName (records : List RecordKind) : String :=
  (records.findSome? (fun r =>
    match r with
    | RecordKind.PTR name => some name
    | _ => none)).getD "unknown"

/-- TXT-derived peer id, falling back to the instance name. -/
def respPeerId (records : List RecordKind) : String :=
  (records.findSome? recTxtPeerId).getD (respPeerName records)

/-- SRV port, falling back to the local port. -/
def respPort (records : List RecordKind) (self_port : Nat) : Nat :=
  (records.findSome? (fun r =>
    match r with
    | RecordKind.SRV port => some port
    | _ => none)).getD self_port

/-- The observe-loop body's accept decision for one mDNS response: the
PeerInfo inserted into the registry, or none when the response is skipped,
with the checks in the source's order. -/
def observeDecision (self_id : String) (self_port : Nat)
    (records : List RecordKind) : Option PeerInfo :=
  let addr := respAddr records
  let peer_name := respPeerName records
  let peer_id := respPeerId records
  let peer_port := respPort records self_port
  if peer_id = "" ∨ peer_port = 0 then none
  else if strBlank peer_name ∨ 128 < peer_name.utf8ByteSize then none
  else
    match addr with
    | none => none
    | some ip =>
      if peer_id = self_id then none
      else if ip.loopback ∨ ip.multicast then none
      else
        let peer_info : PeerInfo :=
          { id := peer_id, name := peer_name, ip := ip, port := peer_port }
        if peer_info.is_valid then some peer_info else none

/-- Whether any TXT record of the response carries the app=p2pchat tag. -/
def hasAppTag (records : List RecordKind) : Bool :=
  records.any (fun r =>
    match r with
    | RecordKind.TXT txts => txts.any (fun txt => txt == "app=p2pchat")
    | _ => false)

/-- Modelled from the spec: the key-resolution and checking order of
verify_message in the spec's own words - look up signer_id in KnownKeys,
else parse the attached 32-byte public key, caching it under signer_id on
success; Err(InvalidPublicKey) when the attached key is not exactly 32
bytes or fails parsing; Err(InvalidSignature) when the signature is not 64
bytes; otherwise the boolean verification result over message:timestamp. -/
def verify_message_spec {E : Ed25519} (cm : CryptoManager E) (sm : SignedMessage) :
    CryptoManager E × Except CryptoError Bool :=
  match mlookup cm.known_keys sm.signer_id with
  | some key =>
    if sm.signature.length = 64 then
      (cm, Except.ok (E.verify key (sm.message ++ ":" ++ natStr sm.timestamp) sm.signature))
    else (cm, Except.error CryptoError.InvalidSignature)
  | none =>
    if sm.public_key.length = 32 then
      match E.parseVk sm.public_key with
      | none => (cm, Except.error CryptoError.InvalidPublicKey)
      | some key =>
        let cm' := { cm with known_keys := minsert cm.known_keys sm.signer_id key }
        if sm.signature.length = 64 then
          (cm', Except.ok
            (E.verify key (sm.message ++ ":" ++ natStr sm.timestamp) sm.signature))
        else (cm', Except.error CryptoError.InvalidSignature)
    else (cm, Except.error CryptoError.InvalidPublicKey)

/-- Concrete trace: create a proposal needing 2 of 3 approvals, then receive
an upgrade-activation broadcast for it. -/
def c1CeOps : List (Op toyE) :=
  [Op.create "p" "alice" "Alice" "upgrade" 2 3 0, Op.activate "p"]

/-- Concrete trace: create a proposal needing 1 of 2 approvals, then cast an
approving vote, which meets the threshold. -/
def wOps : List (Op toyE) :=
  [Op.create "p" "alice" "Alice" "d" 1 2 0, Op.cast "p" "v1" "V1" true 0 toyCm]

/-- The proposal record created by the first operation of wOps. -/
def wProp : UpgradeProposal :=
  { proposal_id := "p", proposer_id := "alice", proposer_name := "Alice"
    timestamp := 0, description := "d", required_approvals := 1, total_peers := 2 }

/-- Facts the spec's signed-round-trip and tamper-detection sentences assume
of the Ed25519 primitives for a given signing key: output shapes (64-byte
signatures, parse/serialize inverse), correctness of verification, and
ideal unforgeability (a signature never verifies against a different
message, a different signature value, or a different key). -/
structure SchemeSound (E : Ed25519) (sk : E.Sk) : Prop where
  sign_len : ∀ s, (E.sign sk s).length = 64
  vk_len : ∀ vk : E.Vk, (E.vkBytes vk).length = 32
  parse_vkBytes : ∀ vk : E.Vk, E.parseVk (E.vkBytes vk) = some vk
  vkBytes_parse : ∀ (b : List Nat) (vk : E.Vk), E.parseVk b = some vk → E.vkBytes vk = b
  verify_sign : ∀ s, E.verify (E.vkOf sk) s (E.sign sk s) = true
  verify_ne_msg : ∀ s t, t ≠ s → E.verify (E.vkOf sk) t (E.sign sk s) = false
  verify_ne_sig : ∀ s sg, sg ≠ E.sign sk s → E.verify (E.vkOf sk) s sg = false
  verify_ne_key : ∀ (k : E.Vk) s, k ≠ E.vkOf sk → E.verify k s (E.sign sk s) = false

/-- A manager whose key cache was poisoned for its own peer id by a hostile
IdentityAnnouncement: self-peer is bound to key 99 instead of 7. -/
def cmBad : CryptoManager toyE :=
  { toyCm with known_keys := [("self-peer", (show Nat from 99))] }

/-- A manager that has already cached its own true key under its peer id. -/
def cmCached : CryptoManager toyE :=
  { toyCm with known_keys := [("self-peer", (show Nat from 7))] }

/-- A peer whose threshold manager has latched the secure-only flag. -/
def peerOn : Peer toyE :=
  { peer_id := "me", name := "Me", port := 9000, peers := []
    crypto_manager := toyCm, threshold_manager := run toyE wOps }

/-- A peer whose threshold manager is fresh: the flag is down. -/
def peerOff : Peer toyE :=
  { peer_id := "me", name := "Me", port := 9000, peers := []
    crypto_manager := toyCm, threshold_manager := ThresholdManager.new }

/-- A peer with exactly one registry entry, so the registry size is odd. -/
def c5Peer : Peer toyE :=
  { peer_id := "me", name := "Me", port := 9000
    peers := [("other",
      { id := "other", name := "Other"
        ip := { addr := 1, loopback := false, multicast := false }, port := 9001 })]
    crypto_manager := toyCm, threshold_manager := ThresholdManager.new }

/-- An mDNS response carrying a PTR name, a TXT record with a peer_id= entry
but no app=p2pchat tag, an SRV port and a routable address. -/
def c9Records : List RecordKind :=
  [RecordKind.PTR "Alice-xyz", RecordKind.TXT ["peer_id=zzz"], RecordKind.SRV 9000,
   RecordKind.A { addr := 5, loopback := false, multicast := false }]

/-- C7 counterexample trace state: a fresh engine holding one open proposal
p with a high threshold. -/
def c7Tm : ThresholdManager :=
  (create_proposal ThresholdManager.new "p" "a" "A" "d" 5 9 0).1

/-! Theorems. -/

theorem mlookup_minsert_self {V : Type} (m : List (String × V)) (k : String) (v : V) :
    mlookup (minsert m k v) k = some v := by
  simp [mlookup, minsert]

theorem mlookup_minsert_ne {V : Type} (m : List (String × V)) {k k' : String} (v : V)
    (h : k' ≠ k) : mlookup (minsert m k' v) k = mlookup m k := by
  simp [mlookup, minsert, h]

theorem readDigits_append (cs : List Char) (c : Char) :
    readDigits (cs ++ [c]) = (readDigits cs) * 10 + (c.toNat - 48) := by
  simp [readDigits]

theorem digitChar_toNat {n : Nat} (h : n < 10) : (Nat.digitChar n).toNat = 48 + n := by
  interval_cases n <;> rfl

theorem readDigits_natDigitsAux :
    ∀ fuel n, n < fuel → readDigits (natDigitsAux fuel n) = n := by
  intro fuel
  induction fuel with
  | zero => intro n h; omega
  | succ f ih =>
    intro n h
    by_cases h10 : n < 10
    · simp [natDigitsAux, h10, readDigits, digitChar_toNat h10]
    · have hdiv : n / 10 < f := by omega
      rw [show natDigitsAux (f + 1) n =
          natDigitsAux f (n / 10) ++ [Nat.digitChar (n % 10)] from by
        simp [natDigitsAux, h10]]
      rw [readDigits_append, ih _ hdiv, digitChar_toNat (Nat.mod_lt _ (by omega))]
      omega

theorem readDigits_natDigits (n : Nat) : readDigits (natDigits n) = n :=
  readDigits_natDigitsAux (n + 1) n (Nat.lt_succ_self n)

theorem natDigits_injective : Function.Injective natDigits := by
  intro m n h
  have := readDigits_natDigits m
  rw [h, readDigits_natDigits] at this
  omega

theorem natStr_injective : Function.Injective natStr := by
  intro m n h
  apply natDigits_injective
  simpa [natStr, String.ext_iff] using h

theorem approvedCount_append (vs : List UpgradeVote) (v : UpgradeVote) :
    approvedCount (vs ++ [v]) =
      approvedCount vs + (if v.approved then 1 else 0) := by
  by_cases h : v.approved <;> simp [approvedCount, h]

theorem get_proposal_votes_appendVote_self (tm : ThresholdManager) (pid : String)
    (v : UpgradeVote) :
    get_proposal_votes { tm with votes := appendVote tm.votes pid v } pid =
      get_proposal_votes tm pid ++ [v] := by
  simp [get_proposal_votes, appendVote, mlookup_minsert_self]

theorem get_proposal_votes_appendVote_ne (tm : ThresholdManager) {pid pid' : String}
    (v : UpgradeVote) (h : pid ≠ pid') :
    get_proposal_votes { tm with votes := appendVote tm.votes pid v } pid' =
      get_proposal_votes tm pid' := by
  simp [get_proposal_votes, appendVote, mlookup_minsert_ne _ _ h]

theorem afterVote_cases (tm : ThresholdManager) (pid : String) (v : UpgradeVote) :
    ((∃ p, mlookup tm.proposals pid = some p ∧
        p.required_approvals ≤ approvedCount (get_proposal_votes tm pid ++ [v])) ∧
      (check_threshold { tm with votes := appendVote tm.votes pid v } pid).1 =
        { tm with
          votes := appendVote tm.votes pid v
          proposal_states := minsert tm.proposal_states pid ProposalState.Approved
          secure_only_enabled := true }) ∨
    ((¬ ∃ p, mlookup tm.proposals pid = some p ∧
        p.required_approvals ≤ approvedCount (get_proposal_votes tm pid ++ [v])) ∧
      (check_threshold { tm with votes := appendVote tm.votes pid v } pid).1 =
        { tm with votes := appendVote tm.votes pid v }) := by
  have hv1 : mlookup (appendVote tm.votes pid v) pid =
      some (get_proposal_votes tm pid ++ [v]) := by
    simp [appendVote, mlookup_minsert_self, get_proposal_votes]
  unfold check_threshold
  dsimp only
  rw [hv1]
  cases hex : mlookup tm.proposals pid with
  | none =>
    right
    constructor
    · rintro ⟨p, hp, -⟩; exact Option.noConfusion hp
    · rfl
  | some p =>
    dsimp only
    by_cases hge : p.required_approvals ≤ approvedCount (get_proposal_votes tm pid ++ [v])
    · left
      refine ⟨⟨p, rfl, hge⟩, ?_⟩
      rw [if_pos hge]
    · right
      constructor
      · rintro ⟨q, hq, hgq⟩
        cases hq
        exact hge hgq
      · rw [if_neg hge]

theorem InvUp_afterVote (tm : ThresholdManager) (pid : String) (v : UpgradeVote)
    (hInv : InvUp tm) :
    InvUp (check_threshold { tm with votes := appendVote tm.votes pid v } pid).1 := by
  rcases afterVote_cases tm pid v with ⟨⟨p, hp, hge⟩, heq⟩ | ⟨hno, heq⟩
  · rw [heq]
    intro pid' p' hp' hlen hcnt
    rcases eq_or_ne pid pid' with rfl | hne
    · simp [get_proposal_state, mlookup_minsert_self]
    · have hp'' : mlookup tm.proposals pid' = some p' := hp'
      have hv' : get_proposal_votes
          { tm with
            votes := appendVote tm.votes pid v
            proposal_states := minsert tm.proposal_states pid ProposalState.Approved
            secure_only_enabled := true } pid' = get_proposal_votes tm pid' := by
        simp [get_proposal_votes, appendVote, mlookup_minsert_ne _ _ hne]
      rw [hv'] at hlen hcnt
      have hst := hInv pid' p' hp'' hlen hcnt
      simpa [get_proposal_state, mlookup_minsert_ne _ _ hne] using hst
  · rw [heq]
    intro pid' p' hp' hlen hcnt
    rcases eq_or_ne pid pid' with rfl | hne
    · have hp'' : mlookup tm.proposals pid = some p' := hp'
      rw [get_proposal_votes_appendVote_self] at hcnt
      exact absurd ⟨p', hp'', hcnt⟩ hno
    · have hp'' : mlookup tm.proposals pid' = some p' := hp'
      rw [get_proposal_votes_appendVote_ne tm v hne] at hlen hcnt
      exact hInv pid' p' hp'' hlen hcnt

theorem InvDown_afterVote (tm : ThresholdManager) (pid : String) (v : UpgradeVote)
    (hInv : InvDown tm) :
    InvDown (check_threshold { tm with votes := appendVote tm.votes pid v } pid).1 := by
  rcases afterVote_cases tm pid v with ⟨⟨p, hp, hge⟩, heq⟩ | ⟨hno, heq⟩
  · rw [heq]
    intro pid' p' hp' hst
    rcases eq_or_ne pid pid' with rfl | hne
    · have hp'' : mlookup tm.proposals pid = some p' := hp'
      rw [hp] at hp''
      cases hp''
      simpa [get_proposal_votes, appendVote, mlookup_minsert_self] using hge
    · have hp'' : mlookup tm.proposals pid' = some p' := hp'
      have hst' : get_proposal_state tm pid' = some ProposalState.Approved := by
        simpa [get_proposal_state, mlookup_minsert_ne _ _ hne] using hst
      have := hInv pid' p' hp'' hst'
      simpa [get_proposal_votes, appendVote, mlookup_minsert_ne _ _ hne] using this
  · rw [heq]
    intro pid' p' hp' hst
    rcases eq_or_ne pid pid' with rfl | hne
    · have hp'' : mlookup tm.proposals pid = some p' := hp'
      have hst' : get_proposal_state tm pid = some ProposalState.Approved := hst
      have hcnt := hInv pid p' hp'' hst'
      rw [get_proposal_votes_appendVote_self, approvedCount_append]
      omega
    · have hp'' : mlookup tm.proposals pid' = some p' := hp'
      have hst' : get_proposal_state tm pid' = some ProposalState.Approved := hst
      rw [get_proposal_votes_appendVote_ne tm v hne]
      exact hInv pid' p' hp'' hst'

theorem InvNodup_afterVote (tm : ThresholdManager) (pid : String) (v : UpgradeVote)
    (hInv : InvNodup tm)
    (hnew : ∀ w ∈ get_proposal_votes tm pid, w.voter_id ≠ v.voter_id) :
    InvNodup (check_threshold { tm with votes := appendVote tm.votes pid v } pid).1 := by
  have main : ∀ pid',
      ((get_proposal_votes { tm with votes := appendVote tm.votes pid v } pid').map
        (fun w => w.voter_id)).Nodup := by
    intro pid'
    rcases eq_or_ne pid pid' with rfl | hne
    · rw [get_proposal_votes_appendVote_self]
      rw [List.map_append, List.nodup_append]
      refine ⟨hInv pid, by simp, ?_⟩
      intro a ha hb
      simp only [List.map_cons, List.map_nil, List.mem_singleton] at hb
      obtain ⟨w, hw, hwa⟩ := List.mem_map.mp ha
      exact hnew w hw (by rw [hwa, hb])
    · rw [get_proposal_votes_appendVote_ne tm v hne]
      exact hInv pid'
  rcases afterVote_cases tm pid v with ⟨-, heq⟩ | ⟨-, heq⟩
  · rw [heq]
    intro pid'
    have := main pid'
    rcases eq_or_ne pid pid' with rfl | hne
    · rw [get_proposal_votes_appendVote_self] at this
      simpa [get_proposal_votes, appendVote, mlookup_minsert_self] using this
    · rw [get_proposal_votes_appendVote_ne tm v hne] at this
      simpa [get_proposal_votes, appendVote, mlookup_minsert_ne _ _ hne] using this
  · rw [heq]
    exact main

theorem cast_vote_fst_cases {E : Ed25519} (tm : ThresholdManager)
    (pid vid vname : String) (ap : Bool) (ts : Nat) (cm : CryptoManager E) :
    (cast_vote tm pid vid vname ap ts cm).1 = tm ∨
    ∃ v : UpgradeVote,
      (∀ w ∈ get_proposal_votes tm pid, w.voter_id ≠ vid) ∧ v.voter_id = vid ∧
      (cast_vote tm pid vid vname ap ts cm).1 =
        (check_threshold { tm with votes := appendVote tm.votes pid v } pid).1 := by
  unfold cast_vote
  cases hst : mlookup tm.proposal_states pid with
  | none => left; rfl
  | some s =>
    cases s with
    | Open =>
      dsimp only
      by_cases hdup : ((mlookup tm.votes pid).getD []).any (fun v => v.voter_id == vid)
      · rw [if_pos hdup]; left; rfl
      · rw [if_neg hdup]
        right
        refine ⟨_, ?_, rfl, rfl⟩
        intro w hw
        have := List.any_eq_false.mp (Bool.of_not_eq_true hdup) w hw
        simpa using this
    | Approved => left; rfl
    | Rejected => left; rfl

theorem handle_received_vote_cases (tm : ThresholdManager) (v : UpgradeVote) :
    handle_received_vote tm v = tm ∨
    ((∀ w ∈ get_proposal_votes tm v.proposal_id, w.voter_id ≠ v.voter_id) ∧
      handle_received_vote tm v =
        (check_threshold { tm with votes := appendVote tm.votes v.proposal_id v }
          v.proposal_id).1) := by
  unfold handle_received_vote
  by_cases hdup : (get_proposal_votes tm v.proposal_id).any
      (fun w => w.voter_id == v.voter_id)
  · rw [if_pos hdup]; left; rfl
  · rw [if_neg hdup]
    right
    refine ⟨?_, rfl⟩
    intro w hw
    have := List.any_eq_false.mp (Bool.of_not_eq_true hdup) w hw
    simpa using this

theorem InvUp_new : InvUp ThresholdManager.new := by
  intro pid p hp
  simp [ThresholdManager.new, mlookup] at hp

theorem InvDown_new : InvDown ThresholdManager.new := by
  intro pid p hp
  simp [ThresholdManager.new, mlookup] at hp

theorem InvNodup_new : InvNodup ThresholdManager.new := by
  intro pid
  simp [ThresholdManager.new, get_proposal_votes, mlookup]

theorem InvUp_step {E : Ed25519} (tm : ThresholdManager) (op : Op E)
    (h : InvUp tm) : InvUp (step tm op) := by
  cases op with
  | create pid prid prname desc m n ts =>
    intro pid' p' hp' hlen hcnt
    rcases eq_or_ne pid pid' with rfl | hne
    · simp [step, create_proposal, get_proposal_votes, mlookup_minsert_self] at hlen
    · have hp'' : mlookup tm.proposals pid' = some p' := by
        simpa [step, create_proposal, mlookup_minsert_ne _ _ hne] using hp'
      rw [show get_proposal_votes (step tm (Op.create (E := E) pid prid prname desc m n ts))
            pid' = get_proposal_votes tm pid' from by
        simp [step, create_proposal, get_proposal_votes, mlookup_minsert_ne _ _ hne]]
        at hlen hcnt
      have := h pid' p' hp'' hlen hcnt
      simpa [step, create_proposal, get_proposal_state, mlookup_minsert_ne _ _ hne]
        using this
  | insertReceived p =>
    by_cases hex : (get_proposal tm p.proposal_id).isSome
    · simpa [step, insert_received_proposal, hex] using h
    · intro pid' p' hp' hlen hcnt
      rcases eq_or_ne p.proposal_id pid' with rfl | hne
      · simp [step, insert_received_proposal, hex, get_proposal_votes,
          mlookup_minsert_self] at hlen
      · have hp'' : mlookup tm.proposals pid' = some p' := by
          simpa [step, insert_received_proposal, hex, mlookup_minsert_ne _ _ hne] using hp'
        rw [show get_proposal_votes (step tm (Op.insertReceived (E := E) p)) pid' =
              get_proposal_votes tm pid' from by
          simp [step, insert_received_proposal, hex, get_proposal_votes,
            mlookup_minsert_ne _ _ hne]] at hlen hcnt
        have := h pid' p' hp'' hlen hcnt
        simpa [step, insert_received_proposal, hex, get_proposal_state,
          mlookup_minsert_ne _ _ hne] using this
  | cast pid vid vname ap ts cm =>
    rcases cast_vote_fst_cases tm pid vid vname ap ts cm with heq | ⟨v, -, -, heq⟩
    · simpa [step, heq] using h
    · show InvUp (cast_vote tm pid vid vname ap ts cm).1
      rw [heq]
      exact InvUp_afterVote tm pid v h
  | recvVote v =>
    rcases handle_received_vote_cases tm v with heq | ⟨-, heq⟩
    · simpa [step, heq] using h
    · show InvUp (handle_received_vote tm v)
      rw [heq]
      exact InvUp_afterVote tm v.proposal_id v h
  | activate pid =>
    intro pid' p' hp' hlen hcnt
    rcases eq_or_ne pid pid' with rfl | hne
    · simp [step, handle_upgrade_activation, get_proposal_state, mlookup_minsert_self]
    · have hp'' : mlookup tm.proposals pid' = some p' := hp'
      have hlen' : 1 ≤ (get_proposal_votes tm pid').length := hlen
      have hcnt' : p'.required_approvals ≤ approvedCount (get_proposal_votes tm pid') := hcnt
      have := h pid' p' hp'' hlen' hcnt'
      simpa [step, handle_upgrade_activation, get_proposal_state,
        mlookup_minsert_ne _ _ hne] using this

theorem InvDown_step {E : Ed25519} (tm : ThresholdManager) (op : Op E)
    (hact : op.isActivate = false) (h : InvDown tm) : InvDown (step tm op) := by
  cases op with
  | create pid prid prname desc m n ts =>
    intro pid' p' hp' hst
    rcases eq_or_ne pid pid' with rfl | hne
    · rw [show get_proposal_state
            (step tm (Op.create (E := E) pid prid prname desc m n ts)) pid =
          some ProposalState.Open from by
        simp [step, create_proposal, get_proposal_state, mlookup_minsert_self]] at hst
      cases hst
    · have hp'' : mlookup tm.proposals pid' = some p' := by
        simpa [step, create_proposal, mlookup_minsert_ne _ _ hne] using hp'
      have hst' : get_proposal_state tm pid' = some ProposalState.Approved := by
        simpa [step, create_proposal, get_proposal_state, mlookup_minsert_ne _ _ hne]
          using hst
      have := h pid' p' hp'' hst'
      simpa [step, create_proposal, get_proposal_votes, mlookup_minsert_ne _ _ hne]
        using this
  | insertReceived p =>
    by_cases hex : (get_proposal tm p.proposal_id).isSome
    · simpa [step, insert_received_proposal, hex] using h
    · intro pid' p' hp' hst
      rcases eq_or_ne p.proposal_id pid' with rfl | hne
      · rw [show get_proposal_state (step tm (Op.insertReceived (E := E) p))
              p.proposal_id = some ProposalState.Open from by
          simp [step, insert_received_proposal, hex, get_proposal_state,
            mlookup_minsert_self]] at hst
        cases hst
      · have hp'' : mlookup tm.proposals pid' = some p' := by
          simpa [step, insert_received_proposal, hex, mlookup_minsert_ne _ _ hne]
            using hp'
        have hst' : get_proposal_state tm pid' = some ProposalState.Approved := by
          simpa [step, insert_received_proposal, hex, get_proposal_state,
            mlookup_minsert_ne _ _ hne] using hst
        have := h pid' p' hp'' hst'
        simpa [step, insert_received_proposal, hex, get_proposal_votes,
          mlookup_minsert_ne _ _ hne] using this
  | cast pid vid vname ap ts cm =>
    rcases cast_vote_fst_cases tm pid vid vname ap ts cm with heq | ⟨v, -, -, heq⟩
    · simpa [step, heq] using h
    · show InvDown (cast_vote tm pid vid vname ap ts cm).1
      rw [heq]
      exact InvDown_afterVote tm pid v h
  | recvVote v =>
    rcases handle_received_vote_cases tm v with heq | ⟨-, heq⟩
    · simpa [step, heq] using h
    · show InvDown (handle_received_vote tm v)
      rw [heq]
      exact InvDown_afterVote tm v.proposal_id v h
  | activate pid => simp [Op.isActivate] at hact

theorem InvNodup_step {E : Ed25519} (tm : ThresholdManager) (op : Op E)
    (h : InvNodup tm) : InvNodup (step tm op) := by
  cases op with
  | create pid prid prname desc m n ts =>
    intro pid'
    rcases eq_or_ne pid pid' with rfl | hne
    · simp [step, create_proposal, get_proposal_votes, mlookup_minsert_self]
    · rw [show get_proposal_votes
            (step tm (Op.create (E := E) pid prid prname desc m n ts)) pid' =
          get_proposal_votes tm pid' from by
        simp [step, create_proposal, get_proposal_votes, mlookup_minsert_ne _ _ hne]]
      exact h pid'
  | insertReceived p =>
    by_cases hex : (get_proposal tm p.proposal_id).isSome
    · simpa [step, insert_received_proposal, hex] using h
    · intro pid'
      rcases eq_or_ne p.proposal_id pid' with rfl | hne
      · simp [step, insert_received_proposal, hex, get_proposal_votes,
          mlookup_minsert_self]
      · rw [show get_proposal_votes (step tm (Op.insertReceived (E := E) p)) pid' =
            get_proposal_votes tm pid' from by
          simp [step, insert_received_proposal, hex, get_proposal_votes,
            mlookup_minsert_ne _ _ hne]]
        exact h pid'
  | cast pid vid vname ap ts cm =>
    rcases cast_vote_fst_cases tm pid vid vname ap ts cm with heq | ⟨v, hnew, hvid, heq⟩
    · simpa [step, heq] using h
    · show InvNodup (cast_vote tm pid vid vname ap ts cm).1
      rw [heq]
      refine InvNodup_afterVote tm pid v h ?_
      intro w hw
      rw [hvid]
      exact hnew w hw
  | recvVote v =>
    rcases handle_received_vote_cases tm v with heq | ⟨hnew, heq⟩
    · simpa [step, heq] using h
    · show InvNodup (handle_received_vote tm v)
      rw [heq]
      exact InvNodup_afterVote tm v.proposal_id v h hnew
  | activate pid =>
    intro pid'
    have := h pid'
    simpa [step, handle_upgrade_activation, get_proposal_votes] using this

theorem secure_step_mono {E : Ed25519} (tm : ThresholdManager) (op : Op E)
    (h : tm.secure_only_enabled = true) : (step tm op).secure_only_enabled = true := by
  cases op with
  | create pid prid prname desc m n ts => exact h
  | insertReceived p =>
    by_cases hex : (get_proposal tm p.proposal_id).isSome <;>
      simp [step, insert_received_proposal, hex, h]
  | cast pid vid vname ap ts cm =>
    rcases cast_vote_fst_cases tm pid vid vname ap ts cm with heq | ⟨v, -, -, heq⟩
    · show ((cast_vote tm pid vid vname ap ts cm).1).secure_only_enabled = true
      rw [heq]; exact h
    · show ((cast_vote tm pid vid vname ap ts cm).1).secure_only_enabled = true
      rw [heq]
      rcases afterVote_cases tm pid v with ⟨-, heq2⟩ | ⟨-, heq2⟩ <;> rw [heq2]
      all_goals exact h
  | recvVote v =>
    rcases handle_received_vote_cases tm v with heq | ⟨-, heq⟩
    · show (handle_received_vote tm v).secure_only_enabled = true
      rw [heq]; exact h
    · show (handle_received_vote tm v).secure_only_enabled = true
      rw [heq]
      rcases afterVote_cases tm v.proposal_id v with ⟨-, heq2⟩ | ⟨-, heq2⟩ <;> rw [heq2]
      all_goals exact h
  | activate pid => rfl

theorem secure_runOps_mono {E : Ed25519} (tm : ThresholdManager) (ops : List (Op E))
    (h : tm.secure_only_enabled = true) :
    (runOps tm ops).secure_only_enabled = true := by
  induction ops generalizing tm with
  | nil => exact h
  | cons op tl ih => exact ih (step tm op) (secure_step_mono tm op h)

theorem InvUp_runOps {E : Ed25519} (tm : ThresholdManager) (ops : List (Op E))
    (h : InvUp tm) : InvUp (runOps tm ops) := by
  induction ops generalizing tm with
  | nil => exact h
  | cons op tl ih => exact ih (step tm op) (InvUp_step tm op h)

theorem InvDown_runOps {E : Ed25519} (tm : ThresholdManager) (ops : List (Op E))
    (hact : ∀ op ∈ ops, op.isActivate = false) (h : InvDown tm) :
    InvDown (runOps tm ops) := by
  induction ops generalizing tm with
  | nil => exact h
  | cons op tl ih =>
    exact ih (step tm op) (fun o ho => hact o (List.mem_cons_of_mem op ho))
      (InvDown_step tm op (hact op (List.mem_cons_self op tl)) h)

theorem InvNodup_runOps {E : Ed25519} (tm : ThresholdManager) (ops : List (Op E))
    (h : InvNodup tm) : InvNodup (runOps tm ops) := by
  induction ops generalizing tm with
  | nil => exact h
  | cons op tl ih => exact ih (step tm op) (InvNodup_step tm op h)

theorem char_toNat_lt (c : Char) : c.toNat < 1114112 := by
  have h := c.valid
  rcases h with h | ⟨h1, h2⟩
  · exact Nat.lt_trans h (by norm_num)
  · exact h2

theorem encL_injective : Function.Injective encL := by
  intro l
  induction l with
  | nil =>
    intro l' h
    cases l' with
    | nil => rfl
    | cons c cs =>
      exfalso
      simp only [encL] at h
      omega
  | cons c cs ih =>
    intro l' h
    cases l' with
    | nil =>
      exfalso
      simp only [encL] at h
      omega
    | cons d ds =>
      simp only [encL] at h
      have hc := char_toNat_lt c
      have hd := char_toNat_lt d
      have htail : encL cs = encL ds := by omega
      have hhead : c.toNat = d.toNat := by omega
      have hcd : c = d := Char.ext (UInt32.ext hhead)
      rw [hcd, ih htail]

theorem encStr_injective (s t : String) (h : encL s.data = encL t.data) : s = t :=
  String.ext (encL_injective h)

/-- C1 counterexample: after create_proposal (2-of-3) followed by
handle_upgrade_activation, the proposal's state is Approved although zero
approving votes are recorded, so the claimed equivalence fails on this
concrete trace. -/
theorem c1_threshold_iff_counterexample : ¬ thresholdCorrect (run toyE c1CeOps) := by
  intro h
  have hp : get_proposal (run toyE c1CeOps) "p" = some
      { proposal_id := "p", proposer_id := "alice", proposer_name := "Alice"
        timestamp := 0, description := "upgrade", required_approvals := 2
        total_peers := 3 } := by decide
  have hiff := h "p" _ hp
  have hst : get_proposal_state (run toyE c1CeOps) "p" =
      some ProposalState.Approved := by decide
  have hz : approvedCount (get_proposal_votes (run toyE c1CeOps) "p") = 0 := by decide
  have hge := hiff.mp hst
  rw [hz] at hge
  exact absurd hge (by decide)

/-- C1 (amended): after any operation sequence from a fresh engine, (a) a
proposal with at least one recorded vote whose approved-vote tally reaches
its required_approvals is in state Approved, and (b) when the sequence
contains no handle_upgrade_activation, an Approved proposal's tally reaches
its required_approvals. -/
theorem c1_threshold_correct_amended (E : Ed25519) (ops : List (Op E)) :
    (∀ pid p, get_proposal (run E ops) pid = some p →
      1 ≤ (get_proposal_votes (run E ops) pid).length →
      p.required_approvals ≤ approvedCount (get_proposal_votes (run E ops) pid) →
      get_proposal_state (run E ops) pid = some ProposalState.Approved) ∧
    ((∀ op ∈ ops, op.isActivate = false) →
      ∀ pid p, get_proposal (run E ops) pid = some p →
        get_proposal_state (run E ops) pid = some ProposalState.Approved →
        p.required_approvals ≤ approvedCount (get_proposal_votes (run E ops) pid)) :=
  ⟨fun pid p hp => InvUp_runOps ThresholdManager.new ops InvUp_new pid p hp,
   fun hact pid p hp =>
     InvDown_runOps ThresholdManager.new ops hact InvDown_new pid p hp⟩

/-- Witness for c1_threshold_correct_amended on the concrete trace wOps. -/
theorem c1_threshold_correct_amended_witness :
    (get_proposal (run toyE wOps) "p" = some wProp ∧
      1 ≤ (get_proposal_votes (run toyE wOps) "p").length ∧
      wProp.required_approvals ≤ approvedCount (get_proposal_votes (run toyE wOps) "p") ∧
      (∀ op ∈ wOps, op.isActivate = false)) ∧
    get_proposal_state (run toyE wOps) "p" = some ProposalState.Approved ∧
    wProp.required_approvals ≤ approvedCount (get_proposal_votes (run toyE wOps) "p") :=
  ⟨⟨by decide, by decide, by decide, by decide⟩,
   (c1_threshold_correct_amended toyE wOps).1 "p" wProp (by decide) (by decide)
     (by decide),
   (c1_threshold_correct_amended toyE wOps).2 (by decide) "p" wProp (by decide)
     ((c1_threshold_correct_amended toyE wOps).1 "p" wProp (by decide) (by decide)
       (by decide))⟩

/-- C2: once is_secure_only_enabled is true after some operation sequence, it
stays true after any further operations: no engine operation clears the
secure_only_enabled flag. -/
theorem c2_secure_only_latches (E : Ed25519) (ops₁ ops₂ : List (Op E))
    (h : is_secure_only_enabled (run E ops₁) = true) :
    is_secure_only_enabled (run E (ops₁ ++ ops₂)) = true := by
  have hsplit : run E (ops₁ ++ ops₂) = runOps (run E ops₁) ops₂ := by
    simp [run, runOps, List.foldl_append]
  show (run E (ops₁ ++ ops₂)).secure_only_enabled = true
  rw [hsplit]
  exact secure_runOps_mono (run E ops₁) ops₂ h

/-- Witness for c2_secure_only_latches: the flag set by wOps survives a
further create, a rejected-duplicate vote and an activation. -/
theorem c2_secure_only_latches_witness :
    is_secure_only_enabled (run toyE wOps) = true ∧
    is_secure_only_enabled
      (run toyE (wOps ++ [Op.create "q" "bob" "Bob" "d2" 3 4 1, Op.activate "z"])) =
      true :=
  ⟨by decide,
   c2_secure_only_latches toyE wOps
     [Op.create "q" "bob" "Bob" "d2" 3 4 1, Op.activate "z"] (by decide)⟩

/-- C4: (a) in every state reachable from a fresh engine, no voter id occurs
twice in any proposal's vote list; (b) cast_vote on a proposal on which the
voter already voted leaves the state unchanged and returns an error; (c)
handle_received_vote of a vote whose voter already voted on that proposal
leaves the state unchanged. -/
theorem c4_one_vote_per_voter (E : Ed25519) :
    (∀ ops : List (Op E), ∀ pid,
      ((get_proposal_votes (run E ops) pid).map (fun v => v.voter_id)).Nodup) ∧
    (∀ (tm : ThresholdManager) (pid vid vname : String) (ap : Bool) (ts : Nat)
        (cm : CryptoManager E),
      (∃ v ∈ get_proposal_votes tm pid, v.voter_id = vid) →
      (cast_vote tm pid vid vname ap ts cm).1 = tm ∧
        ∃ e, (cast_vote tm pid vid vname ap ts cm).2 = Except.error e) ∧
    (∀ (tm : ThresholdManager) (v : UpgradeVote),
      (∃ w ∈ get_proposal_votes tm v.proposal_id, w.voter_id = v.voter_id) →
      handle_received_vote tm v = tm) := by
  refine ⟨?_, ?_, ?_⟩
  · intro ops pid
    exact InvNodup_runOps ThresholdManager.new ops InvNodup_new pid
  · rintro tm pid vid vname ap ts cm ⟨v, hv, hvid⟩
    unfold cast_vote
    cases hst : mlookup tm.proposal_states pid with
    | none => exact ⟨rfl, _, rfl⟩
    | some s =>
      cases s with
      | Open =>
        have hdup : ((mlookup tm.votes pid).getD []).any
            (fun w => w.voter_id == vid) = true :=
          List.any_eq_true.mpr ⟨v, hv, by simp [hvid]⟩
        dsimp only
        rw [if_pos hdup]
        exact ⟨rfl, _, rfl⟩
      | Approved => exact ⟨rfl, _, rfl⟩
      | Rejected => exact ⟨rfl, _, rfl⟩
  · rintro tm v ⟨w, hw, hwid⟩
    unfold handle_received_vote
    have hdup : (get_proposal_votes tm v.proposal_id).any
        (fun u => u.voter_id == v.voter_id) = true :=
      List.any_eq_true.mpr ⟨w, hw, by simp [hwid]⟩
    rw [if_pos hdup]

/-- Witness for c4_one_vote_per_voter on the concrete state reached by wOps,
where v1 has already voted on proposal p. -/
theorem c4_one_vote_per_voter_witness :
    (((get_proposal_votes (run toyE wOps) "p").map (fun v => v.voter_id)).Nodup ∧
      (∃ v ∈ get_proposal_votes (run toyE wOps) "p", v.voter_id = "v1")) ∧
    ((cast_vote (run toyE wOps) "p" "v1" "V1" false 5 toyCm).1 = run toyE wOps ∧
      ∃ e, (cast_vote (run toyE wOps) "p" "v1" "V1" false 5 toyCm).2 =
        Except.error e) ∧
    handle_received_vote (run toyE wOps)
      { proposal_id := "p", voter_id := "v1", voter_name := "V1bis"
        approved := false, timestamp := 9, signature := none } = run toyE wOps :=
  ⟨⟨(c4_one_vote_per_voter toyE).1 wOps "p", by decide⟩,
   (c4_one_vote_per_voter toyE).2.1 (run toyE wOps) "p" "v1" "V1" false 5 toyCm
     (by decide),
   (c4_one_vote_per_voter toyE).2.2 (run toyE wOps)
     { proposal_id := "p", voter_id := "v1", voter_name := "V1bis"
       approved := false, timestamp := 9, signature := none } (by decide)⟩

/-- C10: handle_received_vote of a vote whose proposal id has no proposal,
state or votes entry still appends the vote, so get_proposal_votes returns
it, while the proposals and states tables are unchanged. -/
theorem c10_orphan_vote_recorded (tm : ThresholdManager) (v : UpgradeVote)
    (hp : mlookup tm.proposals v.proposal_id = none)
    (_hs : mlookup tm.proposal_states v.proposal_id = none)
    (hv : mlookup tm.votes v.proposal_id = none) :
    get_proposal_votes (handle_received_vote tm v) v.proposal_id = [v] ∧
    (handle_received_vote tm v).proposals = tm.proposals ∧
    (handle_received_vote tm v).proposal_states = tm.proposal_states := by
  have hold : get_proposal_votes tm v.proposal_id = [] := by
    simp [get_proposal_votes, hv]
  have happ : appendVote tm.votes v.proposal_id v =
      minsert tm.votes v.proposal_id [v] := by
    simp [appendVote, hv]
  unfold handle_received_vote
  rw [hold]
  simp only [List.any_nil, Bool.false_eq_true, if_false]
  have hck : (check_threshold { tm with votes := appendVote tm.votes v.proposal_id v }
      v.proposal_id).1 = { tm with votes := appendVote tm.votes v.proposal_id v } := by
    rcases afterVote_cases tm v.proposal_id v with ⟨⟨q, hq, -⟩, -⟩ | ⟨-, hck⟩
    · rw [hp] at hq; exact Option.noConfusion hq
    · exact hck
  rw [hck]
  refine ⟨?_, rfl, rfl⟩
  rw [happ]
  simp [get_proposal_votes, mlookup_minsert_self]

/-- Witness for c10_orphan_vote_recorded: an orphan vote received by a fresh
engine is returned by get_proposal_votes while the other tables stay empty. -/
theorem c10_orphan_vote_recorded_witness :
    (mlookup ThresholdManager.new.proposals "q" = none ∧
      mlookup ThresholdManager.new.proposal_states "q" = none ∧
      mlookup ThresholdManager.new.votes "q" = none) ∧
    (get_proposal_votes
        (handle_received_vote ThresholdManager.new
          { proposal_id := "q", voter_id := "w", voter_name := "W"
            approved := true, timestamp := 3, signature := none }) "q" =
      [{ proposal_id := "q", voter_id := "w", voter_name := "W"
         approved := true, timestamp := 3, signature := none }] ∧
      (handle_received_vote ThresholdManager.new
        { proposal_id := "q", voter_id := "w", voter_name := "W"
          approved := true, timestamp := 3, signature := none }).proposals =
        ThresholdManager.new.proposals ∧
      (handle_received_vote ThresholdManager.new
        { proposal_id := "q", voter_id := "w", voter_name := "W"
          approved := true, timestamp := 3, signature := none }).proposal_states =
        ThresholdManager.new.proposal_states) :=
  ⟨⟨rfl, rfl, rfl⟩,
   c10_orphan_vote_recorded ThresholdManager.new
     { proposal_id := "q", voter_id := "w", voter_name := "W"
       approved := true, timestamp := 3, signature := none } rfl rfl rfl⟩

theorem encode_inj_msg {m m' : String} (ts : Nat) (h : m' ≠ m) :
    m' ++ ":" ++ natStr ts ≠ m ++ ":" ++ natStr ts := by
  intro he
  apply h
  apply String.ext
  have hd : (m' ++ ":" ++ natStr ts).data = (m ++ ":" ++ natStr ts).data := by rw [he]
  rw [String.data_append, String.data_append, String.data_append, String.data_append]
    at hd
  exact List.append_cancel_right (List.append_cancel_right hd)

theorem encode_inj_ts (m : String) {ts ts' : Nat} (h : ts' ≠ ts) :
    m ++ ":" ++ natStr ts' ≠ m ++ ":" ++ natStr ts := by
  intro he
  apply h
  apply natStr_injective
  apply String.ext
  have hd : (m ++ ":" ++ natStr ts').data = (m ++ ":" ++ natStr ts).data := by rw [he]
  rw [String.data_append, String.data_append, String.data_append, String.data_append]
    at hd
  exact List.append_cancel_left hd

theorem verify_message_cached {E : Ed25519} (cm : CryptoManager E)
    (sm : SignedMessage) (k : E.Vk)
    (hk : mlookup cm.known_keys sm.signer_id = some k) :
    verify_message cm sm =
      if sm.signature.length = 64 then
        (cm, Except.ok (E.verify k (sm.message ++ ":" ++ natStr sm.timestamp)
          sm.signature))
      else (cm, Except.error CryptoError.InvalidSignature) := by
  unfold verify_message
  rw [hk]

theorem verify_message_parsed {E : Ed25519} (cm : CryptoManager E)
    (sm : SignedMessage) (k : E.Vk)
    (hk : mlookup cm.known_keys sm.signer_id = none)
    (h32 : sm.public_key.length = 32)
    (hp : E.parseVk sm.public_key = some k) :
    verify_message cm sm =
      if sm.signature.length = 64 then
        ({ cm with known_keys := minsert cm.known_keys sm.signer_id k },
          Except.ok (E.verify k (sm.message ++ ":" ++ natStr sm.timestamp)
            sm.signature))
      else ({ cm with known_keys := minsert cm.known_keys sm.signer_id k },
        Except.error CryptoError.InvalidSignature) := by
  unfold verify_message
  rw [hk]
  dsimp only
  rw [if_pos h32, hp]

theorem verify_message_badpk {E : Ed25519} (cm : CryptoManager E)
    (sm : SignedMessage)
    (hk : mlookup cm.known_keys sm.signer_id = none)
    (hbad : ¬ (sm.public_key.length = 32 ∧ (E.parseVk sm.public_key).isSome)) :
    verify_message cm sm = (cm, Except.error CryptoError.InvalidPublicKey) := by
  unfold verify_message
  rw [hk]
  dsimp only
  by_cases h32 : sm.public_key.length = 32
  · rw [if_pos h32]
    cases hp : E.parseVk sm.public_key with
    | none => rfl
    | some k => exact absurd ⟨h32, by rw [hp]; rfl⟩ hbad
  · rw [if_neg h32]

theorem verify_resolves_true_key {E : Ed25519} (cm : CryptoManager E)
    (sm : SignedMessage) (hS : SchemeSound E cm.signing_key)
    (hvk : cm.verifying_key = E.vkOf cm.signing_key)
    (hcache : mlookup cm.known_keys cm.identity.peer_id = none ∨
      mlookup cm.known_keys cm.identity.peer_id = some cm.verifying_key)
    (hsid : sm.signer_id = cm.identity.peer_id)
    (hpk : sm.public_key = E.vkBytes cm.verifying_key) :
    (verify_message cm sm).2 =
      if sm.signature.length = 64 then
        Except.ok (E.verify (E.vkOf cm.signing_key)
          (sm.message ++ ":" ++ natStr sm.timestamp) sm.signature)
      else Except.error CryptoError.InvalidSignature := by
  rcases hcache with hnone | hsome
  · rw [verify_message_parsed cm sm cm.verifying_key (by rw [hsid]; exact hnone)
      (by rw [hpk]; exact hS.vk_len _) (by rw [hpk]; exact hS.parse_vkBytes _)]
    by_cases h64 : sm.signature.length = 64
    · rw [if_pos h64, if_pos h64, hvk]
    · rw [if_neg h64, if_neg h64]
  · rw [verify_message_cached cm sm cm.verifying_key (by rw [hsid]; exact hsome)]
    by_cases h64 : sm.signature.length = 64
    · rw [if_pos h64, if_pos h64, hvk]
    · rw [if_neg h64, if_neg h64]

/-- C6 (amended): for a well-formed manager whose KnownKeys either lacks an
entry for its own peer id or binds it to its true verifying key, and an
ideal Ed25519: verify of an unmutated sign_message output is Ok true;
mutating message or timestamp gives Ok false; mutating the signature gives
Ok false (64-byte replacement) or Err InvalidSignature (other length);
mutating the public_key gives Ok false or Err InvalidPublicKey when the key
cache misses the signer id, but is undetected (Ok true) when the true key
is already cached under it. -/
theorem c6_sign_verify_tamper_amended {E : Ed25519} (cm : CryptoManager E)
    (m : String) (ts : Nat) (hS : SchemeSound E cm.signing_key)
    (hvk : cm.verifying_key = E.vkOf cm.signing_key)
    (hcache : mlookup cm.known_keys cm.identity.peer_id = none ∨
      mlookup cm.known_keys cm.identity.peer_id = some cm.verifying_key) :
    (verify_message cm (sign_message cm m ts)).2 = Except.ok true ∧
    (∀ m', m' ≠ m →
      (verify_message cm { sign_message cm m ts with message := m' }).2 =
        Except.ok false) ∧
    (∀ ts', ts' ≠ ts →
      (verify_message cm { sign_message cm m ts with timestamp := ts' }).2 =
        Except.ok false) ∧
    (∀ sg, sg ≠ (sign_message cm m ts).signature →
      (verify_message cm { sign_message cm m ts with signature := sg }).2 =
          Except.ok false ∨
        (verify_message cm { sign_message cm m ts with signature := sg }).2 =
          Except.error CryptoError.InvalidSignature) ∧
    (∀ pk, pk ≠ (sign_message cm m ts).public_key →
      (mlookup cm.known_keys cm.identity.peer_id = none →
        (verify_message cm { sign_message cm m ts with public_key := pk }).2 =
            Except.ok false ∨
          (verify_message cm { sign_message cm m ts with public_key := pk }).2 =
            Except.error CryptoError.InvalidPublicKey) ∧
      (mlookup cm.known_keys cm.identity.peer_id = some cm.verifying_key →
        (verify_message cm { sign_message cm m ts with public_key := pk }).2 =
          Except.ok true)) := by
  have h64 : ∀ s, (E.sign cm.signing_key s).length = 64 := hS.sign_len
  refine ⟨?_, ?_, ?_, ?_, ?_⟩
  · rw [verify_resolves_true_key cm _ hS hvk hcache rfl rfl]
    dsimp only [sign_message]
    rw [if_pos (h64 (m ++ ":" ++ natStr ts)), hS.verify_sign]
  · intro m' hne
    rw [verify_resolves_true_key cm _ hS hvk hcache rfl rfl]
    dsimp only [sign_message]
    rw [if_pos (h64 (m ++ ":" ++ natStr ts)),
      hS.verify_ne_msg _ _ (encode_inj_msg ts hne)]
  · intro ts' hne
    rw [verify_resolves_true_key cm _ hS hvk hcache rfl rfl]
    dsimp only [sign_message]
    rw [if_pos (h64 (m ++ ":" ++ natStr ts)),
      hS.verify_ne_msg _ _ (encode_inj_ts m hne)]
  · intro sg hne
    have hne' : sg ≠ E.sign cm.signing_key (m ++ ":" ++ natStr ts) := hne
    rw [verify_resolves_true_key cm _ hS hvk hcache rfl rfl]
    dsimp only [sign_message]
    by_cases hl : sg.length = 64
    · left
      rw [if_pos hl, hS.verify_ne_sig _ _ hne']
    · right
      rw [if_neg hl]
  · intro pk hne
    have hne' : pk ≠ E.vkBytes cm.verifying_key := hne
    constructor
    · intro hnone
      by_cases hgood : pk.length = 32 ∧ (E.parseVk pk).isSome
      · left
        obtain ⟨hl32, hps⟩ := hgood
        obtain ⟨k, hk⟩ := Option.isSome_iff_exists.mp hps
        rw [verify_message_parsed cm _ k hnone hl32 hk]
        dsimp only [sign_message]
        have hkne : k ≠ E.vkOf cm.signing_key := by
          intro heq
          apply hne'
          have hb := hS.vkBytes_parse pk k hk
          rw [heq, ← hvk] at hb
          exact hb.symm
        rw [if_pos (h64 (m ++ ":" ++ natStr ts)), hS.verify_ne_key k _ hkne]
      · right
        rw [verify_message_badpk cm _ hnone hgood]
    · intro hsome
      rw [verify_message_cached cm _ cm.verifying_key hsome]
      dsimp only [sign_message]
      rw [if_pos (h64 (m ++ ":" ++ natStr ts)), hvk, hS.verify_sign]

theorem toyE_sound (sk : Nat) : SchemeSound toyE sk := by
  refine ⟨?_, ?_, ?_, ?_, ?_, ?_, ?_, ?_⟩
  · intro s
    simp [toyE, toySign]
  · intro vk
    simp [toyE, toyVkBytes]
  · intro vk
    simp [toyE, toyParseVk, toyVkBytes]
  · intro b vk h
    cases b with
    | nil => simp [toyE, toyParseVk] at h
    | cons k rest =>
      simp only [toyE, toyParseVk] at h
      by_cases hr : rest = List.replicate 31 0
      · rw [if_pos hr] at h
        cases h
        rw [hr]
        rfl
      · rw [if_neg hr] at h
        cases h
  · intro s
    simp [toyE, toyVerify]
  · intro s t hne
    simp only [toyE, toyVerify, decide_eq_false_iff_not]
    intro h
    apply hne
    simp only [toySign, List.cons.injEq, and_true] at h
    exact (encStr_injective s t h.2).symm
  · intro s sg hne
    simp only [toyE, toyVerify, decide_eq_false_iff_not]
    exact hne
  · intro k s hne
    simp only [toyE, toyVerify, decide_eq_false_iff_not]
    intro h
    simp only [toySign, List.cons.injEq, and_true] at h
    exact hne h.symm

/-- C6 counterexample: with the signer's id bound to a wrong key in
KnownKeys, verify of an unmutated sign_message output is Ok false, refuting
the round-trip half; and with the true key cached, mutating the public_key
of a signed message still verifies Ok true, refuting the tamper-detection
half for the public_key field. -/
theorem c6_sign_verify_counterexample :
    (verify_message cmBad (sign_message cmBad "hi" 5)).2 = Except.ok false ∧
    (verify_message cmCached
        { sign_message cmCached "hi" 5 with public_key := [1, 2, 3] }).2 =
      Except.ok true := by
  constructor
  · rfl
  · rfl

/-- Witness for c6_sign_verify_tamper_amended at the fresh toy manager,
message hi and timestamp 5. -/
theorem c6_sign_verify_tamper_amended_witness :
    (SchemeSound toyE toyCm.signing_key ∧
      toyCm.verifying_key = toyE.vkOf toyCm.signing_key ∧
      (mlookup toyCm.known_keys toyCm.identity.peer_id = none ∨
        mlookup toyCm.known_keys toyCm.identity.peer_id =
          some toyCm.verifying_key)) ∧
    ((verify_message toyCm (sign_message toyCm "hi" 5)).2 = Except.ok true ∧
      (∀ m', m' ≠ "hi" →
        (verify_message toyCm { sign_message toyCm "hi" 5 with message := m' }).2 =
          Except.ok false) ∧
      (∀ ts', ts' ≠ 5 →
        (verify_message toyCm { sign_message toyCm "hi" 5 with timestamp := ts' }).2 =
          Except.ok false) ∧
      (∀ sg, sg ≠ (sign_message toyCm "hi" 5).signature →
        (verify_message toyCm { sign_message toyCm "hi" 5 with signature := sg }).2 =
            Except.ok false ∨
          (verify_message toyCm { sign_message toyCm "hi" 5 with signature := sg }).2 =
            Except.error CryptoError.InvalidSignature) ∧
      (∀ pk, pk ≠ (sign_message toyCm "hi" 5).public_key →
        (mlookup toyCm.known_keys toyCm.identity.peer_id = none →
          (verify_message toyCm
              { sign_message toyCm "hi" 5 with public_key := pk }).2 =
              Except.ok false ∨
            (verify_message toyCm
              { sign_message toyCm "hi" 5 with public_key := pk }).2 =
              Except.error CryptoError.InvalidPublicKey) ∧
        (mlookup toyCm.known_keys toyCm.identity.peer_id =
            some toyCm.verifying_key →
          (verify_message toyCm
            { sign_message toyCm "hi" 5 with public_key := pk }).2 =
            Except.ok true))) :=
  ⟨⟨toyE_sound toyCm.signing_key, rfl, Or.inl rfl⟩,
   c6_sign_verify_tamper_amended toyCm "hi" 5 (toyE_sound toyCm.signing_key) rfl
     (Or.inl rfl)⟩

/-- C3: broadcast_unsigned_message fails with the policy error string
whenever the secure-only flag is latched, and otherwise composes the Chat
wire message with signature None and public_key None and returns Ok. -/
theorem c3_broadcast_unsigned_policy {E : Ed25519} (peer : Peer E)
    (content : String) (now : Nat) :
    (is_secure_only_enabled peer.threshold_manager = true →
      broadcast_unsigned_message peer content now =
        Except.error (ChatError.Unknown
          "Cannot send unsigned messages when secure-only messaging is enabled")) ∧
    (is_secure_only_enabled peer.threshold_manager = false →
      broadcast_unsigned_message peer content now =
        Except.ok (NetworkMessage.Chat
          { from_id := peer.peer_id, from_name := peer.name, content := content
            timestamp := now, signature := none, public_key := none })) := by
  constructor <;> intro h <;> simp [broadcast_unsigned_message, h]

/-- Witness for c3_broadcast_unsigned_policy: a latched peer is refused, a
fresh peer sends the unsigned Chat message. -/
theorem c3_broadcast_unsigned_policy_witness :
    (is_secure_only_enabled peerOn.threshold_manager = true ∧
      broadcast_unsigned_message peerOn "x" 1 =
        Except.error (ChatError.Unknown
          "Cannot send unsigned messages when secure-only messaging is enabled")) ∧
    (is_secure_only_enabled peerOff.threshold_manager = false ∧
      broadcast_unsigned_message peerOff "x" 1 =
        Except.ok (NetworkMessage.Chat
          { from_id := "me", from_name := "Me", content := "x"
            timestamp := 1, signature := none, public_key := none })) :=
  ⟨⟨by decide, (c3_broadcast_unsigned_policy peerOn "x" 1).1 (by decide)⟩,
   ⟨by decide, (c3_broadcast_unsigned_policy peerOff "x" 1).2 (by decide)⟩⟩

/-- C5 counterexample: with a registry of size 1, the created proposal has
total_peers N = 2 but required_approvals 1, not floor(N/2)+1 = 2. -/
theorem c5_propose_threshold_counterexample :
    get_proposal (propose_secure_upgrade c5Peer "d" "pid1" 0).1 "pid1" =
      some { proposal_id := "pid1", proposer_id := "me", proposer_name := "Me"
             timestamp := 0, description := "d", required_approvals := 1
             total_peers := 2 } ∧
    ¬ ((1 : Nat) = 2 / 2 + 1) :=
  ⟨by decide, by decide⟩

/-- C5 (amended): a locally created proposal has total_peers N equal to the
registry size plus one, and required_approvals equal to
floor(registry size / 2) + 1 = floor((N - 1) / 2) + 1, a strict majority of
the registry (the peers other than self); this equals floor(N/2)+1 only for
odd N. -/
theorem c5_propose_threshold_amended {E : Ed25519} (peer : Peer E)
    (description proposal_id : String) (now : Nat) :
    get_proposal (propose_secure_upgrade peer description proposal_id now).1
        proposal_id =
      some { proposal_id := proposal_id, proposer_id := peer.peer_id
             proposer_name := peer.name, timestamp := now
             description := description
             required_approvals := peer.peers.length / 2 + 1
             total_peers := peer.peers.length + 1 } ∧
    peer.peers.length / 2 + 1 = (peer.peers.length + 1 - 1) / 2 + 1 := by
  constructor
  · simp [propose_secure_upgrade, create_proposal, get_proposal, mlookup_minsert_self]
  · simp

/-- C9 counterexample: a response with no app=p2pchat tag is still accepted;
the peer id falls back to the PTR instance name. -/
theorem c9_discovery_tag_counterexample :
    hasAppTag c9Records = false ∧
    observeDecision "me" 8080 c9Records =
      some { id := "Alice-xyz", name := "Alice-xyz"
             ip := { addr := 5, loopback := false, multicast := false }
             port := 9000 } :=
  ⟨by decide, by decide⟩

/-- C9 (amended): an accepted response's peer id is the peer_id= TXT value
of the first record whose TXT set both carries the app=p2pchat tag and a
peer_id= entry, and when no record satisfies that - in particular whenever
the app tag is absent - the peer id falls back to the PTR instance name
(unknown if none); a response without the tag can still be inserted. -/
theorem c9_discovery_peer_id_amended (self_id : String) (self_port : Nat)
    (records : List RecordKind) (pi : PeerInfo)
    (h : observeDecision self_id self_port records = some pi) :
    pi.id = (records.findSome? recTxtPeerId).getD (respPeerName records) ∧
    (hasAppTag records = false → pi.id = respPeerName records) := by
  have hid : pi.id = respPeerId records := by
    simp only [observeDecision] at h
    split at h
    · exact Option.noConfusion h
    · split at h
      · exact Option.noConfusion h
      · split at h
        · exact Option.noConfusion h
        · split at h
          · exact Option.noConfusion h
          · split at h
            · exact Option.noConfusion h
            · split at h
              · cases h
                rfl
              · exact Option.noConfusion h
  refine ⟨hid, ?_⟩
  intro hno
  have hfs : records.findSome? recTxtPeerId = none := by
    apply List.findSome?_eq_none_iff.mpr
    intro r hr
    have hrec := List.any_eq_false.mp hno r hr
    cases r with
    | TXT txts =>
      have htag : ¬ txts.any (fun txt => txt == "app=p2pchat") = true := by
        simpa using hrec
      simp [recTxtPeerId, txtPeerId, htag]
    | A ip => rfl
    | AAAA ip => rfl
    | PTR name => rfl
    | SRV port => rfl
    | Unsupported => rfl
  rw [hid]
  show (records.findSome? recTxtPeerId).getD (respPeerName records) =
    respPeerName records
  rw [hfs]
  rfl

/-- Witness for c9_discovery_peer_id_amended on the tagless response
c9Records, accepted with the PTR fallback id. -/
theorem c9_discovery_peer_id_amended_witness :
    (observeDecision "me" 8080 c9Records =
      some { id := "Alice-xyz", name := "Alice-xyz"
             ip := { addr := 5, loopback := false, multicast := false }
             port := 9000 }) ∧
    ((PeerInfo.id
        { id := "Alice-xyz", name := "Alice-xyz"
          ip := { addr := 5, loopback := false, multicast := false }
          port := 9000 }) =
      (c9Records.findSome? recTxtPeerId).getD (respPeerName c9Records) ∧
      (hasAppTag c9Records = false →
        (PeerInfo.id
          { id := "Alice-xyz", name := "Alice-xyz"
            ip := { addr := 5, loopback := false, multicast := false }
            port := 9000 }) = respPeerName c9Records)) :=
  ⟨by decide,
   c9_discovery_peer_id_amended "me" 8080 c9Records _ (by decide)⟩

/-- C7 counterexample: an approving cast_vote at timestamp 7 records the
signature over the byte string p:v1:true:7:7 - sign_message appends the
timestamp a second time - which differs from a signature over the claimed
byte string p:v1:true:7. -/
theorem c7_vote_signature_counterexample :
    ((get_proposal_votes (cast_vote c7Tm "p" "v1" "V1" true 7 toyCm).1 "p").map
        (fun v => v.signature)) =
      [some (toyE.sign toyCm.signing_key "p:v1:true:7:7")] ∧
    toyE.sign toyCm.signing_key "p:v1:true:7:7" ≠
      toyE.sign toyCm.signing_key "p:v1:true:7" := by
  constructor
  · decide
  · decide

/-- C7 (amended): a successful cast_vote appends exactly one vote, whose
signature is present exactly when approved=true and is then the Ed25519
signature over the byte string
proposal_id:voter_id:approved:timestamp:timestamp (the vote data with the
timestamp appended once more by sign_message); a rejecting vote carries no
signature. -/
theorem c7_vote_signature_amended {E : Ed25519} (tm : ThresholdManager)
    (pid vid vname : String) (ap : Bool) (ts : Nat) (cm : CryptoManager E)
    (hopen : mlookup tm.proposal_states pid = some ProposalState.Open)
    (hnew : ∀ w ∈ get_proposal_votes tm pid, w.voter_id ≠ vid) :
    get_proposal_votes (cast_vote tm pid vid vname ap ts cm).1 pid =
      get_proposal_votes tm pid ++
        [{ proposal_id := pid, voter_id := vid, voter_name := vname
           approved := ap, timestamp := ts
           signature :=
             if ap then
               some (E.sign cm.signing_key
                 (pid ++ ":" ++ vid ++ ":" ++ boolStr ap ++ ":" ++ natStr ts ++
                   ":" ++ natStr ts))
             else none }] := by
  have hguard : ((mlookup tm.votes pid).getD []).any (fun v => v.voter_id == vid) =
      false := by
    apply List.any_eq_false.mpr
    intro w hw
    simpa using hnew w hw
  unfold cast_vote
  rw [hopen]
  dsimp only
  rw [if_neg (show ¬ ((mlookup tm.votes pid).getD []).any
      (fun v => v.voter_id == vid) = true from by
    rw [hguard]; exact Bool.false_ne_true)]
  rcases afterVote_cases tm pid
      { proposal_id := pid, voter_id := vid, voter_name := vname
        approved := ap, timestamp := ts
        signature :=
          if ap then
            some (sign_message cm
              (pid ++ ":" ++ vid ++ ":" ++ boolStr ap ++ ":" ++ natStr ts)
              ts).signature
          else none } with ⟨-, heq⟩ | ⟨-, heq⟩
  · rw [heq]
    simp [get_proposal_votes, appendVote, mlookup_minsert_self, sign_message]
  · rw [heq]
    simp [get_proposal_votes, appendVote, mlookup_minsert_self, sign_message]

/-- Witness for c7_vote_signature_amended: a fresh approving vote on the
open proposal of c7Tm. -/
theorem c7_vote_signature_amended_witness :
    (mlookup c7Tm.proposal_states "p" = some ProposalState.Open ∧
      (∀ w ∈ get_proposal_votes c7Tm "p", w.voter_id ≠ "v2")) ∧
    get_proposal_votes (cast_vote c7Tm "p" "v2" "V2" true 3 toyCm).1 "p" =
      get_proposal_votes c7Tm "p" ++
        [{ proposal_id := "p", voter_id := "v2", voter_name := "V2"
           approved := true, timestamp := 3
           signature :=
             if true then
               some (toyE.sign toyCm.signing_key
                 ("p" ++ ":" ++ "v2" ++ ":" ++ boolStr true ++ ":" ++ natStr 3 ++
                   ":" ++ natStr 3))
             else none }] :=
  ⟨⟨by decide, by decide⟩,
   c7_vote_signature_amended c7Tm "p" "v2" "V2" true 3 toyCm (by decide) (by decide)⟩

/-- C8: verify_message of the code coincides, state update and result alike,
with the spec's description of key resolution, caching and error order
(cache first, else parse-and-cache the 32-byte attached key, then the
64-byte signature check, then boolean verification over message:timestamp). -/
theorem c8_verify_message_refines_spec {E : Ed25519} (cm : CryptoManager E)
    (sm : SignedMessage) : verify_message cm sm = verify_message_spec cm sm := by
  unfold verify_message verify_message_spec
  cases hk : mlookup cm.known_keys sm.signer_id with
  | some key => rfl
  | none =>
    dsimp only
    by_cases h32 : sm.public_key.length = 32
    · rw [if_pos h32, if_pos h32]
      cases hp : E.parseVk sm.public_key with
      | none => rfl
      | some key => rfl
    · rw [if_neg h32, if_neg h32]

end P2PChat

